import Mathlib

/-!
# Verification of the `rpg_vampire` world-graph, persistence codec and combat engine

Shallow embedding of the Python sources under `src/rpg/` (`attackable.py`,
`door.py`, `room.py`, `io_utils.py`, `jsonseri.py`).

Modelling conventions:

* Python `int` is `Int`; every arithmetic operation in the sources is exact
  integer arithmetic except the single float expression `int(damage * 0.8)`
  in `Combat.attack`, which is modelled by `int08` below (see its comment).
* Object references: `Room` objects are identified by their Python `id()`,
  which is exactly what `Room.room_id` stores (`room.py`, `self.room_id =
  id(self)`).  Following the arena model, every reference to a `Room`
  (a door endpoint, the player's `current_room`) is carried as that id,
  and the `Game` owns the id-keyed room table (`Game.rooms`).  Pydantic
  structural equality of two live `Room` objects coincides with equality of
  their `room_id` fields, since distinct live objects have distinct ids.
* Mutation is modelled by returning the updated record.  `random.randint`
  is modelled by an explicit draw oracle `r : Nat`; for any oracle value the
  produced integer lies in the requested inclusive range, and every value of
  the range is hit by some oracle value, which is the exact correctness
  envelope of a uniform draw.
* Fallible operations (`random.randint` on an empty range raises
  `ValueError`, pydantic validators raise `ValidationError`) return
  `Option`/`Except`.
-/

namespace RPG

/-- Python `int(d * 0.8)` from `Combat.attack` (`attackable.py` line 47):
`float` multiplication by `0.8` followed by truncation toward zero.  For
`0 ≤ d` this equals `4 * d / 5` (floor division); for `d < 0` truncation
rounds toward zero.  The double-precision product `d * 0.8` truncates to the
same integer as the exact rational `4*d/5` for all `|d| < 2^50`: when `5 ∣ 4*d`
the rounded product cannot fall below the exactly representable integer
`4*d/5`, and otherwise the fractional part of `4*d/5` is at least `1/5`,
far above the rounding error, so the model is exact on every damage value
the program can meaningfully hold. -/
def int08 (d : Int) : Int :=
  if 0 ≤ d then 4 * d / 5 else -(4 * (-d) / 5)

/-- Python `random.randint(a, b)` (drawn in `Combat.attack`): an integer
uniform on the inclusive range `[a, b]`, raising `ValueError` when `b < a`.
The draw is modelled by the oracle `r`: the result is `a + r % (b - a + 1)`,
which ranges over exactly `[a, b]` as `r` ranges over `Nat`. -/
def randint (a b : Int) (r : Nat) : Option Int :=
  if b < a then none
  else some (a + (r : Int) % (b - a + 1))

/-- The combat-relevant state of anything implementing the `Combat` mixin of
`attackable.py` (`Player` and `Enemy`): the `health` and `damage` fields. -/
structure Combatant where
  health : Int
  damage : Int
deriving DecidableEq, Repr

/-- `Combat.is_alive` (`attackable.py`): `health > 0`. -/
def Combat.is_alive (c : Combatant) : Bool :=
  decide (0 < c.health)

/-- `Combat.take_damage` (`attackable.py`): `self.health -= damage`
(the `print` is I/O only). -/
def Combat.take_damage (c : Combatant) (damage : Int) : Combatant :=
  { c with health := c.health - damage }

/-- `Combat.attack` (`attackable.py` lines 43-53): if the attacker is alive,
draw `damage_dealt = randint(int(damage * 0.8), damage)` and apply it to the
target via `take_damage`; a dead attacker does nothing.  `none` models the
`ValueError` `randint` raises on an empty range. -/
def Combat.attack (attacker target : Combatant) (r : Nat) : Option Combatant :=
  if Combat.is_alive attacker then
    match randint (int08 attacker.damage) attacker.damage r with
    | none => none
    | some damage_dealt => some (Combat.take_damage target damage_dealt)
  else
    some target

/-- The closed NPC-like variants of `room.py`: plain `NPC` (description
only), `Enemy` (adds the `Combat` fields `health` and `damage`), `Wizard`
(adds `bonus_damage` and `healing_power`). -/
inductive NPC where
  | plain (description : String)
  | enemy (description : String) (health damage : Int)
  | wizard (description : String) (bonus_damage healing_power : Int)
deriving DecidableEq, Repr

/-- The serialized (JSON dict) forms produced by `NPC.toJSON`,
`Enemy.toJSON` and `Wizard.toJSON` in `room.py`: all three carry
`description`; the enemy form also carries `health`/`damage`, the wizard
form `bonus_damage`/`healing_power`. -/
inductive NPCJson where
  | plainJ (description : String)
  | enemyJ (description : String) (health damage : Int)
  | wizardJ (description : String) (bonus_damage healing_power : Int)
deriving DecidableEq, Repr

/-- The `"description"` key, present in every serialized NPC form. -/
def NPCJson.description : NPCJson → String
  | .plainJ d => d
  | .enemyJ d _ _ => d
  | .wizardJ d _ _ => d

/-- `NPC.toJSON` / `Enemy.toJSON` / `Wizard.toJSON` (`room.py`). -/
def NPC.toJSON : NPC → NPCJson
  | .plain d => .plainJ d
  | .enemy d h dm => .enemyJ d h dm
  | .wizard d bd hp => .wizardJ d bd hp

/-- `NPC.fromJSON` (`room.py` lines 45-56): builds a plain
`NPC(description=json_data["description"])`, reading no other key. -/
def NPC.fromJSON (json_data : NPCJson) : NPC :=
  NPC.plain json_data.description

/-- `Enemy.validate_health` (`room.py` lines 71-87): the pydantic
`field_validator` on `health`, raising `ValueError` for `health <= 0`. -/
def Enemy.validate_health (value : Int) : Except String Int :=
  if value ≤ 0 then Except.error "Health must be greater than 0."
  else Except.ok value

/-- The pydantic constructor call `Enemy(description=..., health=...,
damage=...)`: runs `validate_health` on `health` (the only validator the
class declares) and builds the object on success. -/
def Enemy.create (description : String) (health damage : Int) : Except String NPC :=
  match Enemy.validate_health health with
  | Except.error e => Except.error e
  | Except.ok h => Except.ok (NPC.enemy description h damage)

/-- A `Door` of `door.py`: a description and two non-owning `Room`
references, carried as room ids (see the header note on references). -/
structure Door where
  description : String
  connected_room : Nat
  opposite_room : Nat
deriving DecidableEq, Repr

/-- The serialized form produced by `Door.toJSON` (`door.py` lines 89-101):
rooms are stored as their ids to break the reference cycle. -/
structure DoorJson where
  description : String
  connected_room_id : Nat
  opposite_room_id : Nat
deriving DecidableEq, Repr

/-- `Door.toJSON` (`door.py`): `connected_room_id = id(self.connected_room)`
and likewise for the opposite room; in the arena model the stored reference
already is that id. -/
def Door.toJSON (d : Door) : DoorJson :=
  { description := d.description
    connected_room_id := d.connected_room
    opposite_room_id := d.opposite_room }

/-- A `Room` of `room.py`: description, the id assigned at construction
(`self.room_id = id(self)`), the ordered door list and the ordered NPC
list. -/
structure Room where
  description : String
  room_id : Nat
  doors : List Door
  npcs : List NPC
deriving DecidableEq, Repr

/-- The serialized form produced by `Room.toJSON` (`room.py` lines
213-225). -/
structure RoomJson where
  description : String
  room_id : Nat
  doors : List DoorJson
  npcs : List NPCJson
deriving DecidableEq, Repr

/-- `Room.toJSON` (`room.py`). -/
def Room.toJSON (r : Room) : RoomJson :=
  { description := r.description
    room_id := r.room_id
    doors := r.doors.map Door.toJSON
    npcs := r.npcs.map NPC.toJSON }

/-- `Room.fromJSON` (`room.py` lines 245-260): rebuilds the room shell with
the serialized `room_id`, decodes every serialized NPC through the plain
`NPC.fromJSON`, and sets `room.doors = []` — the serialized `doors` entry of
`json_data` is never read. -/
def Room.fromJSON (json_data : RoomJson) : Room :=
  { description := json_data.description
    room_id := json_data.room_id
    doors := []
    npcs := json_data.npcs.map NPC.fromJSON }

/-- `Room.add_door` (`room.py`): append. -/
def Room.add_door (r : Room) (door : Door) : Room :=
  { r with doors := r.doors ++ [door] }

/-- `Room.add_npc` (`room.py`): append. -/
def Room.add_npc (r : Room) (npc : NPC) : Room :=
  { r with npcs := r.npcs ++ [npc] }

/-- The result type of `Door.fromJSON` (`door.py` lines 103-121): the two
endpoints are looked up with `room_dict.get(...)`, which yields the room or
Python `None`; the reference is kept as `Option` of the room's id. -/
structure DoorFrom where
  description : String
  connected_room : Option Nat
  opposite_room : Option Nat
deriving DecidableEq, Repr

/-- `Door.fromJSON` (`door.py` lines 103-121): resolves both endpoint ids
through `room_dict.get`, silently producing `None` for an absent id — no
exception is raised on a dangling reference. -/
def Door.fromJSON (json_data : DoorJson) (room_dict : List (Nat × Room)) : DoorFrom :=
  { description := json_data.description
    connected_room := (List.lookup json_data.connected_room_id room_dict).map Room.room_id
    opposite_room := (List.lookup json_data.opposite_room_id room_dict).map Room.room_id }

/-- The `Player` of `room.py`: name, the current-room reference (as the
room's id, see the header note), and the `Combat` fields. -/
structure Player where
  name : String
  current_room : Nat
  health : Int
  damage : Int
deriving DecidableEq, Repr

/-- The serialized form produced by `Player.toJSON` (`room.py` lines
293-305): the current room is embedded as a full `Room` snapshot. -/
structure PlayerJson where
  name : String
  current_room : RoomJson
  health : Int
  damage : Int
deriving DecidableEq, Repr

/-- `Player.toJSON` (`room.py`), given the dereferenced current room. -/
def Player.toJSON (p : Player) (current : Room) : PlayerJson :=
  { name := p.name
    current_room := Room.toJSON current
    health := p.health
    damage := p.damage }

/-- `Player.fromJSON` (`room.py` lines 307-323): decodes the embedded room
snapshot with `Room.fromJSON` and stores it as the player's current room.
The decoded object is a fresh instance separate from the shared room table;
in the arena model the player keeps the decoded snapshot's `room_id`. -/
def Player.fromJSON (json_data : PlayerJson) : Player :=
  { name := json_data.name
    current_room := (Room.fromJSON json_data.current_room).room_id
    health := json_data.health
    damage := json_data.damage }

/-- `Player.change_room` (`room.py`): reassigns `current_room` (the `print`
is I/O only). -/
def Player.change_room (p : Player) (new_room : Nat) : Player :=
  { p with current_room := new_room }

/-- `Wizard.give_bonus` (`room.py` lines 171-184): `player.health +=
self.healing_power; player.damage += self.bonus_damage`; the wizard itself
is not modified. -/
def Wizard.give_bonus (bonus_damage healing_power : Int) (player : Player) : Player :=
  { player with
      health := player.health + healing_power
      damage := player.damage + bonus_damage }

/-- `Door.interact` (`door.py` lines 72-87): if the player's current room
equals the door's `opposite_room`, move to `connected_room`, otherwise move
to `opposite_room`.  The Python `==` on two live pydantic `Room` objects
holds exactly when they are the same object, i.e. share a `room_id`. -/
def Door.interact (d : Door) (player : Player) : Player :=
  if player.current_room = d.opposite_room then
    Player.change_room player d.connected_room
  else
    Player.change_room player d.opposite_room

/-- The `Game` state of `io_utils.py`: the id-keyed room table and the
player. -/
structure Game where
  rooms : List (Nat × Room)
  player : Player
deriving DecidableEq, Repr

/-- The serialized form produced by `Game.toJSON` (`io_utils.py` lines
191-204): the `"rooms"` dict and the embedded player snapshot. -/
structure GameJson where
  rooms : List (Nat × RoomJson)
  player : PlayerJson
deriving DecidableEq, Repr

/-- `Game.toJSON` (`io_utils.py`): each table entry is serialized in place,
and the player's current room is serialized by dereferencing the player's
room reference (in Python the reference itself is the object; the lookup
cannot fail on a live game, `none` marks the impossible dangling case). -/
def Game.toJSON (g : Game) : Option GameJson :=
  match List.lookup g.player.current_room g.rooms with
  | none => none
  | some current =>
      some
        { rooms := g.rooms.map (fun entry => (entry.1, Room.toJSON entry.2))
          player := Player.toJSON g.player current }

/-- `Game.fromJSON` (`io_utils.py` lines 206-229): pass 1 rebuilds every
room of the `"rooms"` dict with `Room.fromJSON` and keys the table by the
decoded `room_id`; then the player is rebuilt with `Player.fromJSON`.  The
source's pass 2 (`for room in game.rooms.values(): for door in room.doors:
...`) iterates each decoded room's `doors` list, which `Room.fromJSON`
always sets to `[]`, so it touches nothing and is omitted here (had the
list been non-empty the loop would fault, since decoded doors carry no
`connected_room_id` attribute). -/
def Game.fromJSON (json_data : GameJson) : Game :=
  { rooms := json_data.rooms.map (fun entry =>
      ((Room.fromJSON entry.2).room_id, Room.fromJSON entry.2))
    player := Player.fromJSON json_data.player }

/-- Update the room table entry at key `k` (writing through a reference to
the room object aliased by the table). -/
def updateRoom (rooms : List (Nat × Room)) (k : Nat) (r : Room) : List (Nat × Room) :=
  rooms.map (fun entry => if entry.1 = k then (k, r) else entry)

/-- One `choice == 0` iteration of the combat loop `Game.combat`
(`io_utils.py` lines 313-340), fighting the enemy at index `i` of the
player's current room's NPC list (the index `look_for_company` selected):
the player attacks; if the enemy survives it counter-attacks, and the
mutated enemy object is visible at its list position; otherwise
`self.player.current_room.npcs.remove(enemy)` removes the first list entry
equal to the defeated (mutated) enemy object.  `rP`/`rE` are the two damage
draws; `none` models the paths the source cannot take here (missing room,
non-enemy index) or a faulting draw. -/
def Game.combatAttackRound (g : Game) (i : Nat) (rP rE : Nat) : Option Game :=
  match List.lookup g.player.current_room g.rooms with
  | none => none
  | some room =>
    match room.npcs[i]? with
    | some (NPC.enemy desc eh ed) =>
      match Combat.attack ⟨g.player.health, g.player.damage⟩ ⟨eh, ed⟩ rP with
      | none => none
      | some est =>
        if Combat.is_alive est then
          match Combat.attack est ⟨g.player.health, g.player.damage⟩ rE with
          | none => none
          | some pst =>
            some { rooms := updateRoom g.rooms g.player.current_room
                     { room with npcs := room.npcs.set i (NPC.enemy desc est.health est.damage) },
                   player := { g.player with health := pst.health } }
        else
          let dead := NPC.enemy desc est.health est.damage
          some { rooms := updateRoom g.rooms g.player.current_room
                   { room with npcs := (room.npcs.set i dead).erase dead },
                 player := g.player }
    | _ => none

/-- The wizard branch of `Game.look_for_company` (`io_utils.py` lines
302-307): `npcs[choice].give_bonus(self.player)` followed by
`npcs[choice].interact(self.player)` (a pure `print`); only the player is
modified, never the room table or the wizard. -/
def Game.interactWizard (g : Game) (i : Nat) : Game :=
  match List.lookup g.player.current_room g.rooms with
  | none => g
  | some room =>
    match room.npcs[i]? with
    | some (NPC.wizard _ bd hp) =>
        { g with player := Wizard.give_bonus bd hp g.player }
    | _ => g

/-- The `Game.combat` loop (`io_utils.py` lines 313-340) specialised to the
player always choosing `0` (attack), on the two combatants' stats: while
both sides are alive, the player attacks; a surviving enemy immediately
counter-attacks.  Each iteration consumes one pair of damage draws; the
result is `(player, enemy, rounds used)`, and `none` means the supplied
draw list was exhausted with the fight still ongoing (or a draw faulted). -/
def combatLoop (p e : Combatant) : List (Nat × Nat) → Option (Combatant × Combatant × Nat)
  | [] =>
    if Combat.is_alive p && Combat.is_alive e then none
    else some (p, e, 0)
  | (rP, rE) :: rest =>
    if Combat.is_alive p && Combat.is_alive e then
      match Combat.attack p e rP with
      | none => none
      | some e1 =>
        if Combat.is_alive e1 then
          match Combat.attack e1 p rE with
          | none => none
          | some p1 =>
            (combatLoop p1 e1 rest).map (fun out => (out.1, out.2.1, out.2.2 + 1))
        else
          (combatLoop p e1 rest).map (fun out => (out.1, out.2.1, out.2.2 + 1))
    else some (p, e, 0)

/-! ### Concrete states used by the closed theorems below -/

/-- A self-loop door of a one-room world (both endpoints are room `1`). -/
def selfLoopDoor : Door :=
  { description := "A mysterious red door.", connected_room := 1, opposite_room := 1 }

/-- A live room owning one door and one plain NPC. -/
def dustyRoom : Room :=
  { description := "A dusty room full of old computers."
    room_id := 1
    doors := [selfLoopDoor]
    npcs := [NPC.plain "A suspiciously happy looking orc"] }

/-- A live one-room world with the player inside it. -/
def liveGame : Game :=
  { rooms := [(1, dustyRoom)]
    player := { name := "Matthew", current_room := 1, health := 100, damage := 20 } }

/-- A serialized door whose `connected_room_id` (`99`) is not a key of the
room table of `danglingGameJson`. -/
def danglingDoorJson : DoorJson :=
  { description := "A mysterious red door.", connected_room_id := 99, opposite_room_id := 1 }

/-- A serialized room carrying the dangling door. -/
def danglingRoomJson : RoomJson :=
  { description := "A dark room with dark doors."
    room_id := 1
    doors := [danglingDoorJson]
    npcs := [NPCJson.plainJ "The kerstman"] }

/-- A full snapshot whose only room holds a door referencing the absent room
id `99`. -/
def danglingGameJson : GameJson :=
  { rooms := [(1, danglingRoomJson)]
    player := { name := "Matthew", current_room := danglingRoomJson, health := 100, damage := 20 } }

/-- A room holding a bystander NPC and an enemy about to be defeated. -/
def witnessRoom : Room :=
  { description := "A dark room with dark doors."
    room_id := 1
    doors := []
    npcs := [NPC.plain "The kerstman", NPC.enemy "A fierce goblin" 5 15] }

/-- The live world around `witnessRoom`. -/
def witnessGame : Game :=
  { rooms := [(1, witnessRoom)]
    player := { name := "Matthew", current_room := 1, health := 100, damage := 20 } }

/-! ### Helper lemmas -/

/-- For a non-negative damage value the draw range is well formed:
`0 ≤ int08 d ≤ d`. -/
lemma int08_bounds (d : Int) (hd : 0 ≤ d) : 0 ≤ int08 d ∧ int08 d ≤ d := by
  rw [int08, if_pos hd]
  omega

/-- An alive attacker with non-negative damage always deals some damage in
`[int08 damage, damage]` (the draw never faults). -/
lemma attack_deals (a t : Combatant) (r : Nat)
    (ha : Combat.is_alive a = true) (hd : 0 ≤ a.damage) :
    ∃ dealt, Combat.attack a t r = some (Combat.take_damage t dealt)
      ∧ int08 a.damage ≤ dealt ∧ dealt ≤ a.damage := by
  obtain ⟨h0, hle⟩ := int08_bounds a.damage hd
  have hm : 0 < a.damage - int08 a.damage + 1 := by omega
  refine ⟨int08 a.damage + (r : Int) % (a.damage - int08 a.damage + 1), ?_, ?_, ?_⟩
  · rw [Combat.attack, if_pos ha, randint, if_neg (by omega)]
  · have := Int.emod_nonneg (r : Int) (by omega : a.damage - int08 a.damage + 1 ≠ 0)
    omega
  · have := Int.emod_lt_of_pos (r : Int) hm
    omega

/-- Every value of the inclusive range `[int08 damage, damage]` is realised
by some draw oracle value. -/
lemma attack_hits (a t : Combatant) (v : Int)
    (ha : Combat.is_alive a = true) (hd : 0 ≤ a.damage)
    (h1 : int08 a.damage ≤ v) (h2 : v ≤ a.damage) :
    Combat.attack a t (v - int08 a.damage).toNat = some (Combat.take_damage t v) := by
  obtain ⟨h0, hle⟩ := int08_bounds a.damage hd
  have hcast : (((v - int08 a.damage).toNat : Nat) : Int) = v - int08 a.damage :=
    Int.toNat_of_nonneg (by omega)
  rw [Combat.attack, if_pos ha, randint, if_neg (by omega), hcast,
    Int.emod_eq_of_lt (by omega) (by omega)]
  have hv : int08 a.damage + (v - int08 a.damage) = v := by ring
  rw [hv]

/-- `attack` never changes the target's `damage` field. -/
lemma attack_target_damage (a t t2 : Combatant) (r : Nat)
    (h : Combat.attack a t r = some t2) : t2.damage = t.damage := by
  rw [Combat.attack] at h
  by_cases ha : Combat.is_alive a = true
  · rw [if_pos ha] at h
    cases hr : randint (int08 a.damage) a.damage r with
    | none => rw [hr] at h; cases h
    | some dealt =>
        rw [hr] at h
        cases h
        rfl
  · rw [if_neg ha] at h
    cases h
    rfl

/-- `is_alive` is `false` exactly on non-positive health. -/
lemma is_alive_false_iff (c : Combatant) : Combat.is_alive c = false ↔ c.health ≤ 0 := by
  simp [Combat.is_alive]

/-- `is_alive` is `true` exactly on positive health. -/
lemma is_alive_true_iff (c : Combatant) : Combat.is_alive c = true ↔ 0 < c.health := by
  simp [Combat.is_alive]

/-- Writing `v` at position `i` and then erasing the first occurrence of `v`
erases exactly position `i`, provided no earlier position already holds
`v`. -/
lemma set_erase_eq_eraseIdx {α : Type} [DecidableEq α] (l : List α) (i : Nat) (v : α)
    (hi : i < l.length) (hnd : ∀ j, j < i → l[j]? ≠ some v) :
    (l.set i v).erase v = l.eraseIdx i := by
  induction l generalizing i with
  | nil => simp at hi
  | cons x xs ih =>
    cases i with
    | zero =>
        simp only [List.set_cons_zero, List.eraseIdx_cons_zero]
        exact List.erase_cons_head v xs
    | succ n =>
        have hx : ¬(x == v) = true := by
          have h0 := hnd 0 (Nat.succ_pos n)
          simpa using h0
        simp only [List.set_cons_succ, List.eraseIdx_cons_succ]
        rw [List.erase_cons_tail hx]
        congr 1
        refine ih n (by simpa using hi) ?_
        intro j hj
        have := hnd (j + 1) (Nat.succ_lt_succ hj)
        simpa using this

/-- Updating the room table at key `cur` leaves every other key's lookup
unchanged. -/
lemma lookup_updateRoom_ne (rooms : List (Nat × Room)) (cur k : Nat) (r : Room)
    (hk : k ≠ cur) :
    List.lookup k (updateRoom rooms cur r) = List.lookup k rooms := by
  induction rooms with
  | nil => rfl
  | cons e rest ih =>
    by_cases he : e.1 = cur
    · have : (k == e.1) = false := by simp [he, hk]
      simp only [updateRoom, List.map_cons, if_pos he] at *
      rw [List.lookup_cons, List.lookup_cons]
      simp only [this]
      simp only [show (k == cur) = false by simp [hk]]
      exact ih
    · simp only [updateRoom, List.map_cons, if_neg he] at *
      rw [List.lookup_cons, List.lookup_cons]
      cases hke : k == e.1 with
      | true => rfl
      | false => exact ih

/-- Updating the room table rewrites the entry at key `cur` in place for
every entry whose key is `cur`. -/
lemma lookup_updateRoom_eq (rooms : List (Nat × Room)) (cur : Nat) (r : Room)
    (h : (List.lookup cur rooms).isSome) :
    List.lookup cur (updateRoom rooms cur r) = some r := by
  induction rooms with
  | nil => simp [List.lookup] at h
  | cons e rest ih =>
    by_cases he : e.1 = cur
    · simp only [updateRoom, List.map_cons, if_pos he]
      rw [List.lookup_cons]
      simp
    · simp only [updateRoom, List.map_cons, if_neg he] at *
      rw [List.lookup_cons] at *
      have : (cur == e.1) = false := by
        simp only [beq_eq_false_iff_ne]
        exact fun hc => he hc.symm
      simp only [this] at h ⊢
      exact ih h

/-- The combat loop of the C9 scenario: with the player at `damage = 20`
(per-round damage in `[16, 20]`) and the enemy at `damage = 15` (counter
damage in `[12, 15]`), if the enemy's health is at most `16 * m`, the
player survives `15 * (m - 1)` worth of counters, and at least `m` draw
pairs remain, the loop ends within `m` rounds with the enemy at
non-positive health and the player still alive. -/
lemma combatLoop_bound :
    ∀ (m : Nat) (draws : List (Nat × Nat)) (p e : Combatant),
      p.damage = 20 → e.damage = 15 →
      m ≤ draws.length → e.health ≤ 16 * m → ((15 * (m - 1) : Nat) : Int) < p.health →
      ∃ pf ef n, combatLoop p e draws = some (pf, ef, n)
        ∧ n ≤ m ∧ ef.health ≤ 0 ∧ 0 < pf.health := by
  intro m
  induction m with
  | zero =>
    intro draws p e hpd hed hlen he hp
    have hdead : Combat.is_alive e = false := (is_alive_false_iff e).mpr (by omega)
    have hp0 : 0 < p.health := by simpa using hp
    cases draws with
    | nil =>
        refine ⟨p, e, 0, ?_, le_refl 0, by omega, hp0⟩
        simp [combatLoop, hdead]
    | cons d rest =>
        refine ⟨p, e, 0, ?_, le_refl 0, by omega, hp0⟩
        obtain ⟨rP, rE⟩ := d
        simp [combatLoop, hdead]
  | succ m ih =>
    intro draws p e hpd hed hlen he hp
    by_cases hedead : e.health ≤ 0
    · have hdead : Combat.is_alive e = false := (is_alive_false_iff e).mpr hedead
      have hp0 : 0 < p.health := by
        have : ((0 : Nat) : Int) ≤ ((15 * (m + 1 - 1) : Nat) : Int) := by
          exact_mod_cast Nat.zero_le _
        omega
      cases draws with
      | nil =>
          refine ⟨p, e, 0, ?_, Nat.zero_le _, hedead, hp0⟩
          simp [combatLoop, hdead]
      | cons d rest =>
          refine ⟨p, e, 0, ?_, Nat.zero_le _, hedead, hp0⟩
          obtain ⟨rP, rE⟩ := d
          simp [combatLoop, hdead]
    · have healive : Combat.is_alive e = true := (is_alive_true_iff e).mpr (by omega)
      have hp0 : 0 < p.health := by
        have : ((0 : Nat) : Int) ≤ ((15 * (m + 1 - 1) : Nat) : Int) := by
          exact_mod_cast Nat.zero_le _
        omega
      have hpalive : Combat.is_alive p = true := (is_alive_true_iff p).mpr hp0
      cases draws with
      | nil => simp at hlen
      | cons d rest =>
        obtain ⟨rP, rE⟩ := d
        obtain ⟨dp, hap, hdp1, hdp2⟩ :=
          attack_deals p e rP hpalive (by rw [hpd]; omega)
        rw [hpd] at hdp1 hdp2
        have hint20 : int08 20 = 16 := rfl
        rw [hint20] at hdp1
        have he1health : (Combat.take_damage e dp).health = e.health - dp := rfl
        have he1damage : (Combat.take_damage e dp).damage = 15 := hed
        by_cases hsurv : 0 < e.health - dp
        · -- the enemy survives and counter-attacks
          have he1alive : Combat.is_alive (Combat.take_damage e dp) = true :=
            (is_alive_true_iff _).mpr (by rw [he1health]; omega)
          obtain ⟨de, hae, hde1, hde2⟩ :=
            attack_deals (Combat.take_damage e dp) p rE he1alive (by rw [he1damage]; omega)
          rw [he1damage] at hde1 hde2
          have hint15 : int08 15 = 12 := rfl
          rw [hint15] at hde1
          have hm1 : 1 ≤ m := by
            by_contra hm0
            have : m = 0 := by omega
            subst this
            omega
          obtain ⟨pf, ef, n, hloop, hn, hef, hpf⟩ :=
            ih rest (Combat.take_damage p de) (Combat.take_damage e dp)
              (by simpa [Combat.take_damage] using hpd)
              (by simpa [Combat.take_damage] using hed)
              (by simpa using hlen)
              (by rw [he1health]; omega)
              (by
                have hcast : ((15 * (m - 1) : Nat) : Int) = 15 * (m : Int) - 15 := by
                  have : 15 * (m - 1) = 15 * m - 15 := by omega
                  rw [this]
                  push_cast [Nat.cast_sub (by omega : 15 ≤ 15 * m)]
                  ring
                have hcast2 : ((15 * (m + 1 - 1) : Nat) : Int) = 15 * (m : Int) := by
                  push_cast
                  ring
                rw [hcast2] at hp
                rw [hcast]
                have : (Combat.take_damage p de).health = p.health - de := rfl
                rw [this]
                omega)
          refine ⟨pf, ef, n + 1, ?_, by omega, hef, hpf⟩
          rw [show combatLoop p e ((rP, rE) :: rest)
              = if Combat.is_alive p && Combat.is_alive e then
                  match Combat.attack p e rP with
                  | none => none
                  | some e1 =>
                    if Combat.is_alive e1 then
                      match Combat.attack e1 p rE with
                      | none => none
                      | some p1 =>
                        (combatLoop p1 e1 rest).map (fun out => (out.1, out.2.1, out.2.2 + 1))
                    else
                      (combatLoop p e1 rest).map (fun out => (out.1, out.2.1, out.2.2 + 1))
                else some (p, e, 0) from rfl]
          rw [hpalive, healive, hap]
          simp only [Bool.and_self, if_true, he1alive, hae, hloop]
          rfl
        · -- the enemy is defeated by this attack; no counter happens
          have he1dead : Combat.is_alive (Combat.take_damage e dp) = false :=
            (is_alive_false_iff _).mpr (by rw [he1health]; omega)
          obtain ⟨pf, ef, n, hloop, hn, hef, hpf⟩ :=
            ih rest p (Combat.take_damage e dp) hpd
              (by simpa [Combat.take_damage] using hed)
              (by simpa using hlen)
              (by rw [he1health]; omega)
              (by
                have hmono : ((15 * (m - 1) : Nat) : Int) ≤ ((15 * (m + 1 - 1) : Nat) : Int) := by
                  exact_mod_cast Nat.mul_le_mul_left 15 (by omega)
                omega)
          refine ⟨pf, ef, n + 1, ?_, by omega, hef, hpf⟩
          rw [show combatLoop p e ((rP, rE) :: rest)
              = if Combat.is_alive p && Combat.is_alive e then
                  match Combat.attack p e rP with
                  | none => none
                  | some e1 =>
                    if Combat.is_alive e1 then
                      match Combat.attack e1 p rE with
                      | none => none
                      | some p1 =>
                        (combatLoop p1 e1 rest).map (fun out => (out.1, out.2.1, out.2.2 + 1))
                    else
                      (combatLoop p e1 rest).map (fun out => (out.1, out.2.1, out.2.2 + 1))
                else some (p, e, 0) from rfl]
          rw [hpalive, healive, hap]
          simp only [Bool.and_self, if_true, he1dead, Bool.false_eq_true, if_false, hloop]
          rfl

/-! ### Claim theorems -/

/-- Claim C1 (code bug).  The spec's round-trip invariant — decoding the
encoding of a world must reproduce the per-room door endpoint pairs — fails
on the code: `Room.fromJSON` resets every decoded room's door list to `[]`
and never reads the serialized `doors` entry, so `Game.fromJSON` of
`Game.toJSON` returns a world without any doors.  Here `liveGame` holds one
door, and its round trip holds none, while the room id, NPC multiset and
player stats survive. -/
theorem roundtrip_drops_doors :
    (Game.toJSON liveGame).map Game.fromJSON
      = some { rooms := [(1, { dustyRoom with doors := [] })], player := liveGame.player }
    ∧ dustyRoom.doors.length = 1 :=
  ⟨rfl, rfl⟩

/-- Claim C2 (counterexample).  Decoding a snapshot whose only door
references the absent room id `99` does not fail with any dangling-reference
error: `Game.fromJSON` succeeds and returns a fresh world (having silently
dropped the door), and `Door.fromJSON` run on the dangling door resolves the
absent id to `None` via `dict.get`. -/
theorem decode_dangling_raises_no_error :
    Game.fromJSON danglingGameJson
      = { rooms := [(1, { description := "A dark room with dark doors.", room_id := 1,
                          doors := [], npcs := [NPC.plain "The kerstman"] })],
          player := { name := "Matthew", current_room := 1, health := 100, damage := 20 } }
    ∧ Door.fromJSON danglingDoorJson (Game.fromJSON danglingGameJson).rooms
      = { description := "A mysterious red door.", connected_room := none,
          opposite_room := some 1 } :=
  ⟨rfl, rfl⟩

/-- Claim C2 (amended).  Decoding a snapshot containing a door whose
endpoint id is not a key of the room table does not raise any error: a
`Door.fromJSON` lookup of an absent id silently yields `None`, and
`Game.fromJSON` never consults door references at all — every decoded
room's door list is empty — so the decode always builds a fresh, complete
`Game` value and no existing world state is touched. -/
theorem decode_ignores_door_references :
    ∀ (dj : DoorJson) (table : List (Nat × Room)) (gj : GameJson),
      List.lookup dj.connected_room_id table = none →
      (Door.fromJSON dj table).connected_room = none
      ∧ ∀ entry ∈ (Game.fromJSON gj).rooms, entry.2.doors = [] := by
  intro dj table gj h
  constructor
  · simp [Door.fromJSON, h]
  · intro entry hmem
    simp only [Game.fromJSON, List.mem_map] at hmem
    obtain ⟨a, _, rfl⟩ := hmem
    rfl

/-- Witness for `decode_ignores_door_references` at the concrete dangling
snapshot. -/
theorem decode_ignores_door_references_witness :
    List.lookup danglingDoorJson.connected_room_id ([] : List (Nat × Room)) = none
    ∧ ((Door.fromJSON danglingDoorJson ([] : List (Nat × Room))).connected_room = none
       ∧ ∀ entry ∈ (Game.fromJSON danglingGameJson).rooms, entry.2.doors = []) :=
  ⟨rfl, decode_ignores_door_references danglingDoorJson [] danglingGameJson rfl⟩

/-- Claim C3 (confirmed).  For an alive attacker with `damage ≥ 1`, one
attack always succeeds (the draw never faults, even on the degenerate
`damage = 1` range `[int08 1, 1] = [0, 1]`) and deals an integer `dealt`
with `int08 damage ≤ dealt ≤ damage`, where `int08 damage` is the code's
`int(damage * 0.8)`; moreover every integer of that inclusive range is
realised by some draw. -/
theorem attack_damage_range :
    ∀ (attacker target : Combatant) (r : Nat),
      0 < attacker.health → 1 ≤ attacker.damage →
      (∃ dealt, Combat.attack attacker target r
          = some (Combat.take_damage target dealt)
        ∧ int08 attacker.damage ≤ dealt ∧ dealt ≤ attacker.damage)
      ∧ ∀ v, int08 attacker.damage ≤ v → v ≤ attacker.damage →
          ∃ r2, Combat.attack attacker target r2 = some (Combat.take_damage target v) := by
  intro attacker target r hh hd
  have ha : Combat.is_alive attacker = true := (is_alive_true_iff attacker).mpr hh
  constructor
  · exact attack_deals attacker target r ha (by omega)
  · intro v h1 h2
    exact ⟨(v - int08 attacker.damage).toNat,
      attack_hits attacker target v ha (by omega) h1 h2⟩

/-- Witness for `attack_damage_range` at the degenerate `damage = 1`
attacker flagged by the spec (`int08 1 = 0`, range `[0, 1]`). -/
theorem attack_damage_range_witness :
    int08 1 = 0
    ∧ (0 : Int) < (⟨5, 1⟩ : Combatant).health
    ∧ (1 : Int) ≤ (⟨5, 1⟩ : Combatant).damage
    ∧ ((∃ dealt, Combat.attack ⟨5, 1⟩ ⟨10, 7⟩ 0
          = some (Combat.take_damage ⟨10, 7⟩ dealt)
        ∧ int08 (⟨5, 1⟩ : Combatant).damage ≤ dealt
        ∧ dealt ≤ (⟨5, 1⟩ : Combatant).damage)
      ∧ ∀ v, int08 (⟨5, 1⟩ : Combatant).damage ≤ v → v ≤ (⟨5, 1⟩ : Combatant).damage →
          ∃ r2, Combat.attack ⟨5, 1⟩ ⟨10, 7⟩ r2 = some (Combat.take_damage ⟨10, 7⟩ v)) :=
  ⟨rfl, by decide, by decide, attack_damage_range ⟨5, 1⟩ ⟨10, 7⟩ 0 (by decide) (by decide)⟩

/-- Claim C4 (confirmed).  `Door.interact` sends a player standing in the
door's `opposite_room` to `connected_room` and any other player to
`opposite_room`; consequently going through the same door twice starting
from `opposite_room` returns the player to `opposite_room` (also through a
self-loop door). -/
theorem door_interact_own_inverse :
    ∀ (d : Door) (p : Player),
      (p.current_room = d.opposite_room →
        Door.interact d p = Player.change_room p d.connected_room)
      ∧ (p.current_room ≠ d.opposite_room →
        Door.interact d p = Player.change_room p d.opposite_room)
      ∧ (p.current_room = d.opposite_room →
        (Door.interact d (Door.interact d p)).current_room = d.opposite_room) := by
  intro d p
  refine ⟨fun h => ?_, fun h => ?_, fun h => ?_⟩
  · rw [Door.interact, if_pos h]
  · rw [Door.interact, if_neg h]
  · by_cases hc : d.connected_room = d.opposite_room
    · simp [Door.interact, Player.change_room, h, hc]
    · simp [Door.interact, Player.change_room, h, hc]

/-- Witness for `door_interact_own_inverse`: crossing a two-ended door twice
from its `opposite_room` side lands back in `opposite_room`. -/
theorem door_interact_own_inverse_witness :
    (Door.interact ⟨"A mysterious red door.", 2, 1⟩
        (Door.interact ⟨"A mysterious red door.", 2, 1⟩
          ⟨"Matthew", 1, 100, 20⟩)).current_room
      = (⟨"A mysterious red door.", 2, 1⟩ : Door).opposite_room :=
  (door_interact_own_inverse ⟨"A mysterious red door.", 2, 1⟩ ⟨"Matthew", 1, 100, 20⟩).2.2 rfl

/-- Claim C5 (counterexample).  Constructing an `Enemy` with `damage = 0`
(below the claimed `damage ≥ 1` bound) and positive health succeeds — the
class declares a validator for `health` only, so the claimed validation
failure on `damage < 1` does not happen. -/
theorem enemy_create_accepts_low_damage :
    Enemy.create "A fierce goblin" 5 0 = Except.ok (NPC.enemy "A fierce goblin" 5 0) :=
  rfl

/-- Claim C5 (amended).  The `Enemy` constructor itself validates health:
construction succeeds exactly when `health > 0` (returning the object with
the given fields) and fails with the validation error for `health ≤ 0`;
`damage` is not validated, so any damage value is accepted. -/
theorem enemy_create_validates_health_only :
    ∀ (d : String) (h dm : Int),
      ((∃ e, Enemy.create d h dm = Except.ok e) ↔ 0 < h)
      ∧ (0 < h → Enemy.create d h dm = Except.ok (NPC.enemy d h dm))
      ∧ (h ≤ 0 → Enemy.create d h dm = Except.error "Health must be greater than 0.") := by
  intro d h dm
  by_cases h0 : h ≤ 0
  · have he : Enemy.create d h dm = Except.error "Health must be greater than 0." := by
      rw [Enemy.create, Enemy.validate_health, if_pos h0]
    refine ⟨?_, fun hc => absurd hc (by omega), fun _ => he⟩
    constructor
    · rintro ⟨e, hok⟩
      rw [he] at hok
      cases hok
    · intro hc
      exact absurd hc (by omega)
  · have hpos : 0 < h := by omega
    have hok : Enemy.create d h dm = Except.ok (NPC.enemy d h dm) := by
      rw [Enemy.create, Enemy.validate_health, if_neg h0]
    refine ⟨?_, fun _ => hok, fun hc => absurd hc h0⟩
    exact ⟨fun _ => hpos, fun _ => ⟨NPC.enemy d h dm, hok⟩⟩

/-- Witness for `enemy_create_validates_health_only` at the goblin of the
spawn routine (`health = 50 > 0`, `damage = 15`). -/
theorem enemy_create_validates_health_only_witness :
    (0 : Int) < 50
    ∧ Enemy.create "A fierce goblin" 50 15 = Except.ok (NPC.enemy "A fierce goblin" 50 15) :=
  ⟨by decide, (enemy_create_validates_health_only "A fierce goblin" 50 15).2.1 (by decide)⟩

/-- Claim C6 (confirmed).  In a combat round where the player's attack
leaves the enemy at index `i` with non-positive health, the round removes
exactly that defeated enemy from the player's current room's NPC list — the
survivors keep their original relative order (`List.eraseIdx i`) — and no
other room of the table changes; the player is also left unchanged (no
counter-attack happens).  The hypothesis that no earlier NPC equals the
defeated enemy's (structurally compared) value reflects Python
`list.remove`, which drops the first equal element; in reachable states no
live NPC ever equals a dead enemy. -/
theorem combat_round_removes_defeated_enemy :
    ∀ (g : Game) (i rP rE : Nat) (room : Room) (desc : String) (eh ed : Int)
      (est : Combatant),
      List.lookup g.player.current_room g.rooms = some room →
      room.npcs[i]? = some (NPC.enemy desc eh ed) →
      Combat.attack ⟨g.player.health, g.player.damage⟩ ⟨eh, ed⟩ rP = some est →
      est.health ≤ 0 →
      (∀ j, j < i → room.npcs[j]? ≠ some (NPC.enemy desc est.health est.damage)) →
      Game.combatAttackRound g i rP rE
        = some { rooms := updateRoom g.rooms g.player.current_room
                   { room with npcs := room.npcs.eraseIdx i },
                 player := g.player }
      ∧ ∀ k, k ≠ g.player.current_room →
          List.lookup k (updateRoom g.rooms g.player.current_room
            { room with npcs := room.npcs.eraseIdx i }) = List.lookup k g.rooms := by
  intro g i rP rE room desc eh ed est h1 h2 h3 h4 h5
  have hdead : Combat.is_alive est = false := (is_alive_false_iff est).mpr h4
  have hi : i < room.npcs.length := (List.getElem?_eq_some.mp h2).1
  constructor
  · rw [Game.combatAttackRound, h1]
    dsimp only
    rw [h2]
    dsimp only
    rw [h3]
    dsimp only
    rw [hdead]
    simp only [Bool.false_eq_true, if_false]
    rw [set_erase_eq_eraseIdx room.npcs i (NPC.enemy desc est.health est.damage) hi h5]
  · intro k hk
    exact lookup_updateRoom_ne g.rooms g.player.current_room k _ hk

/-- Witness for `combat_round_removes_defeated_enemy`: in `witnessGame` the
player (damage 20, draw 0, dealing 16) defeats the goblin at index 1
(health 5), which is removed while the bystander NPC at index 0 stays. -/
theorem combat_round_removes_defeated_enemy_witness :
    Game.combatAttackRound witnessGame 1 0 0
      = some { rooms := updateRoom witnessGame.rooms 1
                 { witnessRoom with npcs := witnessRoom.npcs.eraseIdx 1 },
               player := witnessGame.player } :=
  (combat_round_removes_defeated_enemy witnessGame 1 0 0 witnessRoom
    "A fierce goblin" 5 15 ⟨-11, 15⟩ rfl rfl (by decide) (by decide) (by decide)).1

/-- Claim C7 (confirmed).  The wizard's buff mutates exactly the player's
`health` (by `healing_power`) and `damage` (by `bonus_damage`), leaves the
player's other fields and the whole room table (hence the wizard itself)
unchanged, is not idempotent — a second application adds the increments
again — and on the spec's scenario sends `Player(health=100, damage=20)`
to `health = 130, damage = 30` under `Wizard(bonus_damage=10,
healing_power=30)`. -/
theorem wizard_buff_exact_mutation :
    ∀ (bd hp : Int) (p : Player) (g : Game) (i : Nat),
      (Wizard.give_bonus bd hp p).health = p.health + hp
      ∧ (Wizard.give_bonus bd hp p).damage = p.damage + bd
      ∧ (Wizard.give_bonus bd hp p).name = p.name
      ∧ (Wizard.give_bonus bd hp p).current_room = p.current_room
      ∧ Wizard.give_bonus bd hp (Wizard.give_bonus bd hp p)
          = { p with health := p.health + hp + hp, damage := p.damage + bd + bd }
      ∧ (Game.interactWizard g i).rooms = g.rooms
      ∧ Wizard.give_bonus 10 30 { name := "Matthew", current_room := 1, health := 100, damage := 20 }
          = { name := "Matthew", current_room := 1, health := 130, damage := 30 } := by
  intro bd hp p g i
  refine ⟨rfl, rfl, rfl, rfl, rfl, ?_, rfl⟩
  cases hl : List.lookup g.player.current_room g.rooms with
  | none => simp [Game.interactWizard, hl]
  | some room =>
    cases hn : room.npcs[i]? with
    | none => simp [Game.interactWizard, hl, hn]
    | some npc => cases npc <;> simp [Game.interactWizard, hl, hn]

/-- Claim C8 (confirmed).  `attack` itself guards on the attacker being
alive: a dead attacker (health ≤ 0) leaves any target untouched, and no
draw is made. -/
theorem dead_attacker_no_effect :
    ∀ (attacker target : Combatant) (r : Nat),
      attacker.health ≤ 0 → Combat.attack attacker target r = some target := by
  intro attacker target r h
  have hdead : Combat.is_alive attacker = false := (is_alive_false_iff attacker).mpr h
  rw [Combat.attack, hdead]
  simp

/-- Witness for `dead_attacker_no_effect` at a dead attacker. -/
theorem dead_attacker_no_effect_witness :
    ((0 : Int) ≤ 0) ∧ Combat.attack ⟨0, 5⟩ ⟨10, 3⟩ 7 = some ⟨10, 3⟩ :=
  ⟨by decide, dead_attacker_no_effect ⟨0, 5⟩ ⟨10, 3⟩ 7 (by decide)⟩

/-- Claim C9 (confirmed).  In the scenario `Player(health=100, damage=20)`
versus `Enemy(health=50, damage=15)` with the player attacking each round,
the loop terminates within `ceil(50/16) + ceil(100/12) = 13` rounds for
every sequence of draws, and the side whose health first reaches `≤ 0` is
the enemy: the loop ends with the enemy at non-positive health and the
player still alive (the player always wins within 4 rounds, losing at most
45 health to at most three counters). -/
theorem combat_scenario_terminates :
    ∀ draws : List (Nat × Nat), 13 ≤ draws.length →
      ∃ pf ef n, combatLoop ⟨100, 20⟩ ⟨50, 15⟩ draws = some (pf, ef, n)
        ∧ n ≤ 13 ∧ ef.health ≤ 0 ∧ 0 < pf.health := by
  intro draws hlen
  obtain ⟨pf, ef, n, hloop, hn, hef, hpf⟩ :=
    combatLoop_bound 4 draws ⟨100, 20⟩ ⟨50, 15⟩ rfl rfl (by omega)
      (by norm_num) (by norm_num)
  exact ⟨pf, ef, n, hloop, by omega, hef, hpf⟩

/-- Witness for `combat_scenario_terminates` on thirteen all-zero draw
pairs (player deals 16 per round, enemy counters 12). -/
theorem combat_scenario_terminates_witness :
    13 ≤ (List.replicate 13 ((0 : Nat), (0 : Nat))).length
    ∧ ∃ pf ef n,
        combatLoop ⟨100, 20⟩ ⟨50, 15⟩ (List.replicate 13 ((0 : Nat), (0 : Nat)))
          = some (pf, ef, n)
        ∧ n ≤ 13 ∧ ef.health ≤ 0 ∧ 0 < pf.health :=
  ⟨by decide, combat_scenario_terminates (List.replicate 13 ((0 : Nat), (0 : Nat))) (by decide)⟩

/-- Claim C10 (confirmed).  `Room.fromJSON` rebuilds every serialized NPC
through the plain `NPC.fromJSON`, which reads only the description: every
NPC of a decoded room is the plain variant (no combat fields, no buff
fields), whatever extra keys the snapshot carried. -/
theorem decoded_npcs_are_plain :
    ∀ j : RoomJson,
      (Room.fromJSON j).npcs = j.npcs.map (fun n => NPC.plain n.description)
      ∧ ∀ npc ∈ (Room.fromJSON j).npcs, ∃ d, npc = NPC.plain d := by
  intro j
  refine ⟨rfl, ?_⟩
  intro npc hmem
  simp only [Room.fromJSON, List.mem_map] at hmem
  obtain ⟨n, _, rfl⟩ := hmem
  exact ⟨n.description, rfl⟩

end RPG
